import Mathlib

/-!
Verification of the event-publishing automation script
(`scripts/publish/publish-event.go` of forrostrasbourg.fr).

The Go program is shallowly embedded: pure helpers become Lean functions,
and the effectful orchestration (`publishEventMarkdown`, `publishEvent`)
becomes pure functions over an explicit environment describing the outcomes
of external calls (filesystem, git subprocesses, HTTP), returning the
Go result tuple together with a trace of the external operations performed.
Go strings are modelled as Lean `String` (lists of unicode scalars) except
where byte-level behaviour matters (`capitalizeFirstLetter`), which is
modelled on lists of bytes.
-/

namespace Publish

/-- Go `strings.TrimSuffix`: drops `suffix` from the end of `s` when present,
otherwise returns `s` unchanged. -/
def trimSuffix (s suffix : String) : String :=
  if suffix.data.isSuffixOf s.data then
    String.mk (s.data.take (s.data.length - suffix.data.length))
  else s

/-- Characters Go `path/filepath` treats as the path separator on Unix. -/
def isSep (c : Char) : Bool := c = '/'

/-- Go `filepath.Base` (Unix rules): empty path gives ".", trailing slashes
are stripped, then everything up to the last slash is dropped; a path of
slashes only gives "/". -/
def filepathBase (p : String) : String :=
  if p = "" then "."
  else
    let stripped : List Char := (p.data.reverse.dropWhile isSep).reverse
    if stripped = [] then "/"
    else String.mk (stripped.reverse.takeWhile (fun c => ¬ isSep c)).reverse

/-- Go `strings.Split(s, ",")` on the character list: fields between commas. -/
def splitCommaList : List Char → List (List Char)
  | [] => [[]]
  | c :: cs =>
    let r := splitCommaList cs
    if c = ',' then [] :: r
    else
      match r with
      | [] => [[c]]
      | g :: gs => (c :: g) :: gs

/-- Go `strings.Split(s, ",")`. -/
def splitComma (s : String) : List String :=
  (splitCommaList s.data).map String.mk

/-- Left-pad a number to two digits, as Go time layouts "01"/"02"/"06" do. -/
def pad2 (n : Nat) : String :=
  if n < 10 then "0" ++ toString n else toString n

/-- Left-pad a number to four digits, as the Go time layout "2006" does for
years below 10000. -/
def pad4 (n : Nat) : String :=
  (if n < 10 then "000" else if n < 100 then "00" else if n < 1000 then "0" else "")
    ++ toString n

/-- A calendar date, modelling the fields of a Go `time.Time` the script
reads: year, month (1-12) and day of month. -/
structure Date where
  year : Nat
  month : Nat
  day : Nat
deriving DecidableEq, Repr

/-- Month offsets of Sakamoto's weekday algorithm. -/
def sakamotoTable : List Nat := [0, 3, 2, 5, 0, 3, 5, 1, 4, 6, 2, 4]

/-- Go `time.Time.Weekday()` on a proleptic-Gregorian date (Sakamoto's
formula): 0 = Sunday through 6 = Saturday. -/
def weekdayNumber (d : Date) : Nat :=
  let y := if d.month < 3 then d.year - 1 else d.year
  (y + y / 4 - y / 100 + y / 400 + sakamotoTable.getD (d.month - 1) 0 + d.day) % 7

/-- The French weekday table of `getWeekdayName`. -/
def frenchWeekdays : List String :=
  ["dimanche", "lundi", "mardi", "mercredi", "jeudi", "vendredi", "samedi"]

/-- The English weekday table of `getWeekdayName` (the default branch). -/
def englishWeekdays : List String :=
  ["sunday", "monday", "tuesday", "wednesday", "thursday", "friday", "saturday"]

/-- The French month table of `getMonthName`. -/
def frenchMonths : List String :=
  ["janvier", "février", "mars", "avril", "mai", "juin", "juillet", "août",
   "septembre", "octobre", "novembre", "décembre"]

/-- The English month table of `getMonthName` (the default branch). -/
def englishMonths : List String :=
  ["january", "february", "march", "april", "may", "june", "july", "august",
   "september", "october", "november", "december"]

/-- Go `getWeekdayName`: picks the French table when `lang = "fr"`, the
English table otherwise, and indexes it with the date's weekday. -/
def getWeekdayName (d : Date) (lang : String) : String :=
  let weekdays := if lang = "fr" then frenchWeekdays else englishWeekdays
  weekdays.getD (weekdayNumber d) ""

/-- Go `getMonthName`: picks the French table when `lang = "fr"`, the English
table otherwise, and indexes it with the date's month minus one. -/
def getMonthName (d : Date) (lang : String) : String :=
  let months := if lang = "fr" then frenchMonths else englishMonths
  months.getD (d.month - 1) ""

/-- Simple-uppercase of a unicode scalar in the range 0-255, exactly what
Go `strings.ToUpper` does on such a single-scalar string: ASCII a-z and the
Latin-1 letters à-þ (except ÷) shift down by 32, micro sign µ maps to Greek Μ,
ÿ maps to Ÿ, everything else is unchanged. -/
def upperScalar (c : Nat) : Nat :=
  if 97 ≤ c ∧ c ≤ 122 then c - 32
  else if c = 0xB5 then 0x39C
  else if 0xE0 ≤ c ∧ c ≤ 0xFE ∧ c ≠ 0xF7 then c - 32
  else if c = 0xFF then 0x178
  else c

/-- UTF-8 encoding of a unicode scalar below 0x10000. -/
def utf8EncodeScalar (c : Nat) : List Nat :=
  if c < 0x80 then [c]
  else if c < 0x800 then [0xC0 + c / 0x40, 0x80 + c % 0x40]
  else [0xE0 + c / 0x1000, 0x80 + c / 0x40 % 0x40, 0x80 + c % 0x40]

/-- Go `capitalizeFirstLetter` on the string's bytes: the empty string maps
to itself; otherwise the FIRST BYTE `s[0]` is converted to a string (Go
reads the byte as a unicode scalar and UTF-8 encodes it), uppercased, and
prepended to the remaining bytes `s[1:]`. -/
def capitalizeFirstLetter : List Nat → List Nat
  | [] => []
  | b :: rest => utf8EncodeScalar (upperScalar b) ++ rest

/-- Decode the first UTF-8 scalar of a byte list (one to three bytes). -/
def utf8DecodeFirst : List Nat → Option (Nat × List Nat)
  | [] => none
  | b :: rest =>
    if b < 0x80 then some (b, rest)
    else if 0xC2 ≤ b ∧ b ≤ 0xDF then
      match rest with
      | b2 :: rest2 =>
        if 0x80 ≤ b2 ∧ b2 ≤ 0xBF then some ((b - 0xC0) * 0x40 + (b2 - 0x80), rest2)
        else none
      | [] => none
    else if 0xE0 ≤ b ∧ b ≤ 0xEF then
      match rest with
      | b2 :: b3 :: rest3 =>
        if 0x80 ≤ b2 ∧ b2 ≤ 0xBF ∧ 0x80 ≤ b3 ∧ b3 ≤ 0xBF then
          some ((b - 0xE0) * 0x1000 + (b2 - 0x80) * 0x40 + (b3 - 0x80), rest3)
        else none
      | _ => none
    else none

/-- Reference capitalization following the spec's words: uppercase the first
character AS A WHOLE CODE POINT (decode the leading UTF-8 sequence, uppercase
the scalar, re-encode) and keep the remainder unchanged. -/
def capitalizeFirstLetterRuneAware (s : List Nat) : List Nat :=
  match utf8DecodeFirst s with
  | none => s
  | some (c, rest) => utf8EncodeScalar (upperScalar c) ++ rest

/-- The UTF-8 bytes of the French word "été". -/
def eteBytes : List Nat := [0xC3, 0xA9, 0x74, 0xC3, 0xA9]

/-- Go `capitalizeFirstLetter` restricted to Lean strings, valid for inputs
whose first character is ASCII (the only inputs the script feeds it: weekday
names, which all start with an ASCII lowercase letter). On such inputs the
byte-level function uppercases the first character in place. -/
def capitalizeFirstLetterAscii (s : String) : String :=
  match s.data with
  | [] => s
  | c :: cs =>
    String.mk ((if 97 ≤ c.toNat ∧ c.toNat ≤ 122 then Char.ofNat (c.toNat - 32) else c) :: cs)

/-- Outcome of running an external process, as Go `exec.Cmd.CombinedOutput`
reports it: either the process exited with a code (0 means the returned
error is nil, a non-zero code means an `exec.ExitError`), or it could not be
executed at all. In both cases the combined output captured so far is kept. -/
inductive ExecOutcome where
  | exited (code : Nat) (output : String)
  | execFailure (msg : String) (output : String)
deriving DecidableEq, Repr

/-- Go `runGitCheckChanges` (the default `gitChangeChecker`): runs
`git diff --cached --exit-code filePath` and interprets the outcome.
Exit code 0 gives `(false, nil)`, exit code 1 gives `(true, nil)`, and any
other exit code or execution failure gives an error that wraps the captured
command output. -/
def runGitCheckChanges : ExecOutcome → Except String Bool
  | .exited 0 _ => .ok false
  | .exited 1 _ => .ok true
  | .exited code output =>
      .error ("error running git diff: exit status " ++ toString code ++ "\nOutput: " ++ output)
  | .execFailure msg output =>
      .error ("error running git diff: " ++ msg ++ "\nOutput: " ++ output)

/-- The set Go `unicode.IsSpace` recognizes (`strings.TrimSpace` trims it). -/
def isSpaceChar (c : Char) : Bool :=
  c.toNat = 9 ∨ c.toNat = 10 ∨ c.toNat = 11 ∨ c.toNat = 12 ∨ c.toNat = 13 ∨
  c.toNat = 32 ∨ c.toNat = 0x85 ∨ c.toNat = 0xA0 ∨ c.toNat = 0x1680 ∨
  (0x2000 ≤ c.toNat ∧ c.toNat ≤ 0x200A) ∨ c.toNat = 0x2028 ∨ c.toNat = 0x2029 ∨
  c.toNat = 0x202F ∨ c.toNat = 0x205F ∨ c.toNat = 0x3000

/-- Go `strings.TrimSpace`. -/
def trimSpace (s : String) : String :=
  String.mk (((s.data.dropWhile isSpaceChar).reverse.dropWhile isSpaceChar).reverse)

/-- Split a character list at every occurrence of `sep`. -/
def splitCharList (sep : Char) : List Char → List (List Char)
  | [] => [[]]
  | c :: cs =>
    let r := splitCharList sep cs
    if c = sep then [] :: r
    else
      match r with
      | [] => [[c]]
      | g :: gs => (c :: g) :: gs

/-- Go `strings.Split(content, "\n")`. -/
def splitNewline (s : String) : List String :=
  (splitCharList '\n' s.data).map String.mk

/-- The front matter data extracted from the markdown file: fields `title`,
`place` and `city` of the Go struct `FrontMatterData`. -/
structure FrontMatterData where
  title : String
  place : String
  city : String
deriving DecidableEq, Repr

/-- The line-scanning loop of Go `extractFrontMatter`: every line is trimmed,
the first trimmed line equal to "---" enters the block, the second one stops
the scan (everything after it is dropped), and the trimmed lines seen while
inside the block are collected. -/
def collectFrontMatterLines : Bool → List String → List String
  | _, [] => []
  | inFrontMatter, line :: rest =>
    let l := trimSpace line
    if l = "---" then
      if inFrontMatter then []
      else collectFrontMatterLines true rest
    else if inFrontMatter then l :: collectFrontMatterLines inFrontMatter rest
    else collectFrontMatterLines inFrontMatter rest

/-- Go `extractFrontMatter` on the file's content, with the YAML decoder
abstracted as `decodeYaml`: split the content into lines, collect the
front-matter block, join it with newlines, fail with "no front matter found"
when the joined block is empty, otherwise decode it. -/
def extractFrontMatter (decodeYaml : String → Except String FrontMatterData)
    (filePath content : String) : Except String FrontMatterData :=
  let fmContent := String.intercalate "\n" (collectFrontMatterLines false (splitNewline content))
  if fmContent = "" then .error ("no front matter found in " ++ filePath)
  else
    match decodeYaml fmContent with
    | .error e => .error ("failed to parse front matter: " ++ e)
    | .ok fm => .ok fm

/-- The retry loop of Go `waitForEventPage` with time made explicit: `now`
is the elapsed time, the loop runs while `now` is before the `timeout`
deadline, attempt `i` performs a GET whose outcome is `get i` (`none` models
a network error, `some code` a response with that status code), a 200
response returns nil, anything else sleeps `interval` and retries, and once
the deadline has passed a timeout error is returned. -/
def waitLoop (get : Nat → Option Nat) (timeout interval : Nat)
    (hpos : 0 < interval) (i now : Nat) : Except String Unit :=
  if now < timeout then
    match get i with
    | some code =>
      if code = 200 then .ok ()
      else waitLoop get timeout interval hpos (i + 1) (now + interval)
    | none => waitLoop get timeout interval hpos (i + 1) (now + interval)
  else .error "timed out waiting for the event page to become available"
termination_by timeout - now
decreasing_by
  all_goals omega

/-- Go `waitForEventPage`: run the poll loop from attempt 0 at elapsed
time 0. -/
def waitForEventPage (get : Nat → Option Nat) (timeout interval : Nat)
    (hpos : 0 < interval) : Except String Unit :=
  waitLoop get timeout interval hpos 0 0

/-- Date-related display data of the Go struct `EventData`. -/
structure EventData where
  date : String
  longDate : String
  longDateCapitalized : String
deriving DecidableEq, Repr

/-- One external operation performed by the script, recorded in order. -/
inductive Effect where
  | statFile (path : String)
  | mkdirAll (path : String)
  | parseTemplateFile (path : String)
  | createFile (path : String)
  | execTemplate (path : String)
  | readFile (path : String)
  | getwd
  | git (args : List String)
  | gitDiffCheck (path : String)
  | httpGet (url : String)
  | httpPost (url : String)
deriving DecidableEq, Repr

/-- Outcomes of the external calls `publishEventMarkdown` can make, one
field per call site, so the function itself stays pure. `runGitCommand` and
`checkChanges` model the injected `gitCommandRunner`/`gitChangeChecker`. -/
structure MdEnv where
  outputDirExists : Bool
  mkdirResult : Option String
  parseResult : Option String
  createResult : Option String
  execResult : Option String
  extractResult : Except String FrontMatterData
  getwdResult : Except String String
  runGitCommand : String → List String → Except String String
  checkChanges : String → String → Except String Bool

/-- The tuple `publishEventMarkdown` returns, plus the trace of external
operations it performed. -/
structure MdOut where
  outputPath : String
  data : EventData
  fmData : FrontMatterData
  alreadyPublished : Bool
  eventURL : String
  err : Option String
  trace : List Effect

/-- The date formatted with the Go layout "060102" (YYMMDD). -/
def formatYYMMDD (d : Date) : String :=
  pad2 (d.year % 100) ++ pad2 d.month ++ pad2 d.day

/-- The date formatted with the Go layout "2006-01-02" (ISO). -/
def formatISO (d : Date) : String :=
  pad4 d.year ++ "-" ++ pad2 d.month ++ "-" ++ pad2 d.day

/-- Template base name: the template's file name with a ".template" suffix
stripped first and a ".md" suffix stripped second. -/
def mdBaseName (templatePath : String) : String :=
  trimSuffix (trimSuffix (filepathBase templatePath) ".template") ".md"

/-- Output file name `{YYMMDD}-{baseName}.md` computed by
`publishEventMarkdown`. -/
def mdOutputFilename (templatePath : String) (d : Date) : String :=
  formatYYMMDD d ++ "-" ++ mdBaseName templatePath ++ ".md"

/-- Output path `content/evenements/{filename}` computed by
`publishEventMarkdown`. -/
def mdOutputPath (templatePath : String) (d : Date) : String :=
  "content/evenements/" ++ mdOutputFilename templatePath d

/-- Event slug: the output file name with its ".md" suffix stripped. -/
def mdEventSlug (templatePath : String) (d : Date) : String :=
  trimSuffix (mdOutputFilename templatePath d) ".md"

/-- Event URL `https://forrostrasbourg.fr/evenements/{slug}/` computed by
`publishEventMarkdown`. -/
def mdEventURL (templatePath : String) (d : Date) : String :=
  "https://forrostrasbourg.fr/evenements/" ++ mdEventSlug templatePath d ++ "/"

/-- The commit message `publishEventMarkdown` uses. -/
def mdCommitMessage (dateStr templateFile : String) : String :=
  "Add event for " ++ dateStr ++ " based on template " ++ templateFile

/-- The `EventData` record `publishEventMarkdown` builds from the date. -/
def mdEventData (d : Date) (dateStr lang : String) : EventData :=
  let weekdayLower := getWeekdayName d lang
  let monthLower := getMonthName d lang
  { date := dateStr
    longDate := weekdayLower ++ " " ++ toString d.day ++ " " ++ monthLower
    longDateCapitalized :=
      capitalizeFirstLetterAscii weekdayLower ++ " " ++ toString d.day ++ " " ++ monthLower }

/-- Go `publishEventMarkdown`: computes the output path, event URL and date
strings, then (unless `dryRun`) creates the directory and file, renders the
template, re-extracts the front matter, stages the file, checks the staged
diff and either stops (already published) or commits. Each early `return` of
the Go function is mirrored, with the same result values and error texts. -/
def publishEventMarkdown (env : MdEnv) (templatePath : String) (parsedDate : Date)
    (dateStr lang : String) (dryRun : Bool) : MdOut :=
  let templateFile := filepathBase templatePath
  let outputPath := mdOutputPath templatePath parsedDate
  let eventURL := mdEventURL templatePath parsedDate
  let data := mdEventData parsedDate dateStr lang
  let fm0 : FrontMatterData := ⟨"", "", ""⟩
  if dryRun then ⟨outputPath, data, fm0, false, eventURL, none, []⟩
  else
    let t1 : List Effect :=
      Effect.statFile "content/evenements" ::
        (if env.outputDirExists then [] else [Effect.mkdirAll "content/evenements"])
    match (if env.outputDirExists then none else env.mkdirResult) with
    | some e => ⟨"", data, fm0, false, eventURL, some ("failed to create output directory: " ++ e), t1⟩
    | none =>
      let t2 := t1 ++ [Effect.parseTemplateFile templatePath]
      match env.parseResult with
      | some e => ⟨"", data, fm0, false, eventURL, some ("error parsing template file: " ++ e), t2⟩
      | none =>
        let t3 := t2 ++ [Effect.createFile outputPath]
        match env.createResult with
        | some e => ⟨"", data, fm0, false, eventURL, some ("failed to create output file: " ++ e), t3⟩
        | none =>
          let t4 := t3 ++ [Effect.execTemplate outputPath]
          match env.execResult with
          | some e => ⟨"", data, fm0, false, eventURL, some ("error executing template: " ++ e), t4⟩
          | none =>
            let t5 := t4 ++ [Effect.readFile outputPath]
            match env.extractResult with
            | .error e =>
              ⟨outputPath, data, fm0, false, eventURL, some ("failed to extract front matter: " ++ e), t5⟩
            | .ok fm =>
              let t6 := t5 ++ [Effect.getwd]
              match env.getwdResult with
              | .error e =>
                ⟨outputPath, data, fm, false, eventURL,
                 some ("failed to get current working directory: " ++ e), t6⟩
              | .ok repoDir =>
                let t7 := t6 ++ [Effect.git ["add", outputPath]]
                match env.runGitCommand repoDir ["add", outputPath] with
                | .error e => ⟨outputPath, data, fm, false, eventURL, some ("git add failed: " ++ e), t7⟩
                | .ok _ =>
                  let t8 := t7 ++ [Effect.gitDiffCheck outputPath]
                  match env.checkChanges repoDir outputPath with
                  | .error e => ⟨outputPath, data, fm, false, eventURL, some e, t8⟩
                  | .ok false => ⟨outputPath, data, fm, true, eventURL, none, t8⟩
                  | .ok true =>
                    let msg := mdCommitMessage dateStr templateFile
                    let t9 := t8 ++ [Effect.git ["commit", "-m", msg]]
                    match env.runGitCommand repoDir ["commit", "-m", msg] with
                    | .error e =>
                      ⟨outputPath, data, fm, false, eventURL, some ("git commit failed: " ++ e), t9⟩
                    | .ok _ => ⟨outputPath, data, fm, false, eventURL, none, t9⟩

/-- The message Go `publishEventOnFacebook` composes. -/
def fbMessage (data : EventData) (fm : FrontMatterData) (eventURL : String) : String :=
  data.longDateCapitalized ++ ": " ++ fm.title ++ "\n" ++ fm.place ++ ", " ++ fm.city ++
    "\n\nPlus d\x27informations :\n" ++ eventURL

/-- Go `publishEventOnFacebook` with the HTTP interaction abstracted as
`post` (pageID to outcome): a dry run returns a simulated post URL with no
network call; otherwise the Graph API feed endpoint is posted to. -/
def publishEventOnFacebook (post : String → Except String String)
    (data : EventData) (fm : FrontMatterData) (eventURL pageID token : String)
    (dryRun : Bool) : Except String String × List Effect :=
  if dryRun then
    (.ok ("https://www.facebook.com/" ++ pageID ++ "/posts/SimulatedPostID"), [])
  else
    (post pageID, [Effect.httpPost ("https://graph.facebook.com/" ++ pageID ++ "/feed")])

/-- The fixed page registry `pageIDs` of Go `publishEvent`. -/
def lookupPageID : String → Option String
  | "forro-a-strasbourg" => some "351984064669408"
  | "forro-stras" => some "111247753705287"
  | _ => none

/-- All parameters of a publish run: the Go struct `EventContext`. -/
structure EventContext where
  date : Date
  templatePath : String
  language : String
  dryRun : Bool
  publishFacebook : Bool
  pageAccessToken : String
  facebookPages : String

/-- Outcomes of the external calls `publishEvent` makes beyond those of
`publishEventMarkdown`. -/
structure PubEnv where
  templateExists : Bool
  md : MdEnv
  waitResult : Option String
  post : String → Except String String

/-- The pages Go `publishEvent` selects: both registry names when the flag
is "" or "all", otherwise the comma-separated names as given. -/
def selectedPages (ctx : EventContext) : List String :=
  if ctx.facebookPages = "" ∨ ctx.facebookPages = "all" then
    ["forro-a-strasbourg", "forro-stras"]
  else splitComma ctx.facebookPages

/-- The per-page posting loop of Go `publishEvent`: unknown names are
skipped, each resolved page is posted to, and failure messages are
accumulated in order. Returns the accumulated messages and the trace. -/
def fbPublishLoop (post : String → Except String String) (data : EventData)
    (fm : FrontMatterData) (eventURL token : String) (dryRun : Bool) :
    List String → List String × List Effect
  | [] => ([], [])
  | name :: rest =>
    match lookupPageID name with
    | none => fbPublishLoop post data fm eventURL token dryRun rest
    | some pid =>
      let r := publishEventOnFacebook post data fm eventURL pid token dryRun
      let acc := fbPublishLoop post data fm eventURL token dryRun rest
      match r.1 with
      | .error e =>
        (("Failed to publish event on Facebook page \x27" ++ name ++ "\x27: " ++ e) :: acc.1,
         r.2 ++ acc.2)
      | .ok _ => (acc.1, r.2 ++ acc.2)

/-- Go `publishEvent`: validates the access token and the template path,
publishes the markdown, then (when Facebook publishing is requested) waits
for the page unless dry-run, posts to every selected page, and fails if the
accumulated per-page error list is non-empty. -/
def publishEvent (env : PubEnv) (ctx : EventContext) : Option String × List Effect :=
  if ctx.publishFacebook = true ∧ ctx.pageAccessToken = "" then
    (some "FACEBOOK_PAGE_ACCESS_TOKEN not set", [])
  else
    let t0 : List Effect := [Effect.statFile ctx.templatePath]
    if env.templateExists = false then
      (some ("error publishing event: template file does not exist: " ++ ctx.templatePath), t0)
    else
      let md := publishEventMarkdown env.md ctx.templatePath ctx.date
        (formatISO ctx.date) ctx.language ctx.dryRun
      match md.err with
      | some e => (some ("error publishing event: " ++ e), t0 ++ md.trace)
      | none =>
        if ctx.publishFacebook then
          let waitTrace : List Effect := if ctx.dryRun then [] else [Effect.httpGet md.eventURL]
          match (if ctx.dryRun then none else env.waitResult) with
          | some e =>
            (some ("event page did not become available in time: " ++ e), t0 ++ md.trace ++ waitTrace)
          | none =>
            let fb := fbPublishLoop env.post md.data md.fmData md.eventURL
              ctx.pageAccessToken ctx.dryRun (selectedPages ctx)
            let trace := t0 ++ md.trace ++ waitTrace ++ fb.2
            if fb.1 = [] then (none, trace)
            else (some ("Facebook publishing errors:\n" ++ String.intercalate "\n" fb.1), trace)
        else (none, t0 ++ md.trace)

/-- A commit issued through the git runner. -/
def isCommitEffect : Effect → Bool
  | .git ("commit" :: _) => true
  | _ => false

theorem trimSuffix_append (s t : String) : trimSuffix (s ++ t) t = s := by
  have hsuf : t.data.isSuffixOf (s.data ++ t.data) = true := by
    simp [List.isSuffixOf]
  simp only [trimSuffix, String.data_append, hsuf, if_true]
  rw [List.length_append, Nat.add_sub_cancel, List.take_left]

/-- C3: `capitalizeFirstLetter` returns the empty string on empty input,
uppercases an ASCII first letter in place ("a" to "A", "hello world" to
"Hello world", "World" unchanged), but on a multi-byte first character it
does NOT uppercase the whole code point: on "été" it reinterprets the first
byte 0xC3 alone, yielding the bytes C3 83 A9 74 C3 A9 instead of the
rune-aware capitalization "Été" (C3 89 74 C3 A9). -/
theorem capitalizeFirstLetter_first_byte_only :
    capitalizeFirstLetter [] = [] ∧
    capitalizeFirstLetter [97] = [65] ∧
    capitalizeFirstLetter [104, 101, 108, 108, 111, 32, 119, 111, 114, 108, 100] =
      [72, 101, 108, 108, 111, 32, 119, 111, 114, 108, 100] ∧
    capitalizeFirstLetter [87, 111, 114, 108, 100] = [87, 111, 114, 108, 100] ∧
    capitalizeFirstLetter eteBytes = [0xC3, 0x83, 0xA9, 0x74, 0xC3, 0xA9] ∧
    capitalizeFirstLetterRuneAware eteBytes = [0xC3, 0x89, 0x74, 0xC3, 0xA9] ∧
    capitalizeFirstLetter eteBytes ≠ capitalizeFirstLetterRuneAware eteBytes := by
  decide

/-- C4: the output filename is deterministically `{YYMMDD}-{base}.md` with
the base obtained by stripping ".template" then ".md", and the event URL is
`https://forrostrasbourg.fr/evenements/{slug}/` for the slug of that same
filename; on template "okivu.md.template" and date 2024-12-23 the filename
is exactly "241223-okivu.md" and the URL exactly
"https://forrostrasbourg.fr/evenements/241223-okivu/". Every branch of
`publishEventMarkdown` reports this URL, and the slug plus ".md" recovers
the filename. -/
theorem mdOutputFilename_eventURL_deterministic :
    mdOutputFilename "okivu.md.template" ⟨2024, 12, 23⟩ = "241223-okivu.md" ∧
    mdEventURL "okivu.md.template" ⟨2024, 12, 23⟩ =
      "https://forrostrasbourg.fr/evenements/241223-okivu/" ∧
    mdOutputPath "okivu.md.template" ⟨2024, 12, 23⟩ = "content/evenements/241223-okivu.md" ∧
    (∀ (tp : String) (d : Date), mdOutputFilename tp d = formatYYMMDD d ++ "-" ++ mdBaseName tp ++ ".md") ∧
    (∀ tp : String, mdBaseName tp = trimSuffix (trimSuffix (filepathBase tp) ".template") ".md") ∧
    (∀ (tp : String) (d : Date), mdEventSlug tp d ++ ".md" = mdOutputFilename tp d) ∧
    (∀ (tp : String) (d : Date),
      mdEventURL tp d = "https://forrostrasbourg.fr/evenements/" ++ mdEventSlug tp d ++ "/") ∧
    (∀ env tp d ds lang dr, (publishEventMarkdown env tp d ds lang dr).eventURL = mdEventURL tp d) ∧
    (∀ env tp d ds lang, (publishEventMarkdown env tp d ds lang true).outputPath = mdOutputPath tp d) := by
  refine ⟨by decide, by decide, by decide, ?_, ?_, ?_, ?_, ?_, ?_⟩
  · intro tp d; rfl
  · intro tp; rfl
  · intro tp d
    show trimSuffix (mdOutputFilename tp d) ".md" ++ ".md" = mdOutputFilename tp d
    rw [show mdOutputFilename tp d = (formatYYMMDD d ++ "-" ++ mdBaseName tp) ++ ".md" from rfl,
      trimSuffix_append]
  · intro tp d; rfl
  · intro env tp d ds lang dr
    unfold publishEventMarkdown
    dsimp only
    repeat' split
    all_goals rfl
  · intro env tp d ds lang; rfl

/-- C5: the default change checker maps exit code 0 of the staged-diff
command to `(false, nil)`, exit code 1 to `(true, nil)` (not an error), and
any other exit code or execution failure to an error wrapping the captured
combined output. -/
theorem runGitCheckChanges_exit_codes (code : Nat) (out msg : String)
    (h0 : code ≠ 0) (h1 : code ≠ 1) :
    runGitCheckChanges (.exited 0 out) = .ok false ∧
    runGitCheckChanges (.exited 1 out) = .ok true ∧
    runGitCheckChanges (.exited code out) =
      .error ("error running git diff: exit status " ++ toString code ++ "\nOutput: " ++ out) ∧
    runGitCheckChanges (.execFailure msg out) =
      .error ("error running git diff: " ++ msg ++ "\nOutput: " ++ out) := by
  refine ⟨rfl, rfl, ?_, rfl⟩
  rcases code with _ | _ | n
  · exact absurd rfl h0
  · exact absurd rfl h1
  · rfl

/-- Witness for C5 at exit code 2. -/
theorem runGitCheckChanges_exit_codes_witness :
    runGitCheckChanges (.exited 2 "out") =
      .error ("error running git diff: exit status " ++ toString 2 ++ "\nOutput: " ++ "out") :=
  (runGitCheckChanges_exit_codes 2 "out" "m" (by decide) (by decide)).2.2.1

/-- C6: `getWeekdayName` and `getMonthName` index the French 7-element and
12-element tables when the language is "fr" (weekday 0 = Sunday, month
1-based minus one) and fall back to the English tables for every other
language code; concrete dates agree with the tests (2024-12-23 is a Monday). -/
theorem weekday_month_name_tables (d : Date) (lang : String) (h : lang ≠ "fr") :
    getWeekdayName d "fr" = frenchWeekdays.getD (weekdayNumber d) "" ∧
    getMonthName d "fr" = frenchMonths.getD (d.month - 1) "" ∧
    getWeekdayName d lang = englishWeekdays.getD (weekdayNumber d) "" ∧
    getMonthName d lang = englishMonths.getD (d.month - 1) "" ∧
    frenchWeekdays.length = 7 ∧ englishWeekdays.length = 7 ∧
    frenchMonths.length = 12 ∧ englishMonths.length = 12 ∧
    weekdayNumber d < 7 ∧
    getWeekdayName ⟨2024, 12, 23⟩ "fr" = "lundi" ∧
    getWeekdayName ⟨2024, 12, 23⟩ "en" = "monday" ∧
    getWeekdayName ⟨2024, 12, 24⟩ "fr" = "mardi" ∧
    getMonthName ⟨2024, 12, 23⟩ "fr" = "décembre" ∧
    getMonthName ⟨2024, 12, 23⟩ "en" = "december" ∧
    getMonthName ⟨2024, 1, 1⟩ "fr" = "janvier" ∧
    getMonthName ⟨2024, 1, 1⟩ "en" = "january" := by
  refine ⟨rfl, rfl, ?_, ?_, rfl, rfl, rfl, rfl, Nat.mod_lt _ (by decide),
    by decide, by decide, by decide, by decide, by decide, by decide, by decide⟩
  · simp only [getWeekdayName, if_neg h]
  · simp only [getMonthName, if_neg h]

/-- Witness for C6 with the unrecognized language code "de". -/
theorem weekday_month_name_tables_witness :
    getWeekdayName ⟨2024, 12, 23⟩ "de" = englishWeekdays.getD (weekdayNumber ⟨2024, 12, 23⟩) "" :=
  (weekday_month_name_tables ⟨2024, 12, 23⟩ "de" (by decide)).2.2.1

theorem collectFM_skip (rest : List String) :
    ∀ l : List String, (∀ x ∈ l, trimSpace x ≠ "---") →
      collectFrontMatterLines false (l ++ rest) = collectFrontMatterLines false rest := by
  intro l
  induction l with
  | nil => intro _; rfl
  | cons x xs ih =>
    intro h
    have hx : trimSpace x ≠ "---" := h x (List.mem_cons_self x xs)
    simp only [List.cons_append, collectFrontMatterLines, if_neg hx, Bool.false_eq_true,
      if_false]
    exact ih fun y hy => h y (List.mem_cons_of_mem x hy)

theorem collectFM_inside (rest : List String) :
    ∀ l : List String, (∀ x ∈ l, trimSpace x ≠ "---") →
      collectFrontMatterLines true (l ++ "---" :: rest) = l.map trimSpace := by
  intro l
  induction l with
  | nil =>
    intro _
    simp [collectFrontMatterLines, (by decide : trimSpace "---" = "---")]
  | cons x xs ih =>
    intro h
    have hx : trimSpace x ≠ "---" := h x (List.mem_cons_self x xs)
    simp only [List.cons_append, collectFrontMatterLines, if_neg hx, if_true, List.map_cons,
      List.cons.injEq, true_and]
    exact ih fun y hy => h y (List.mem_cons_of_mem x hy)

theorem parse_error_ne_no_front_matter (e fp : String) :
    ("failed to parse front matter: " ++ e) ≠ ("no front matter found in " ++ fp) := by
  intro h
  have h2 := congrArg String.data h
  rw [String.data_append, String.data_append] at h2
  have hf : ("failed to parse front matter: ".data ++ e.data).head? = some 'f' := rfl
  rw [h2] at hf
  have hn : ("no front matter found in ".data ++ fp.data).head? = some 'n' := rfl
  rw [hn] at hf
  exact absurd hf (by decide)

/-- C10: the front-matter scanner trims surrounding whitespace from every
line it collects inside the delimiter pair (so indentation inside the block
is discarded), ignores every line after the second "---" delimiter, and
`extractFrontMatter` returns the "no front matter found" error exactly when
the joined block content is the empty string. -/
theorem extractFrontMatter_trims_ignores_errors
    (l1 l2 l3 : List String) (decodeYaml : String → Except String FrontMatterData)
    (fp content : String)
    (h1 : ∀ x ∈ l1, trimSpace x ≠ "---") (h2 : ∀ x ∈ l2, trimSpace x ≠ "---") :
    collectFrontMatterLines false (l1 ++ "---" :: l2 ++ "---" :: l3) = l2.map trimSpace ∧
    (extractFrontMatter decodeYaml fp content = .error ("no front matter found in " ++ fp) ↔
      String.intercalate "\n" (collectFrontMatterLines false (splitNewline content)) = "") := by
  constructor
  · rw [List.append_assoc, List.cons_append, collectFM_skip _ l1 h1]
    rw [show collectFrontMatterLines false ("---" :: (l2 ++ "---" :: l3)) =
        collectFrontMatterLines true (l2 ++ "---" :: l3) by
      simp [collectFrontMatterLines, (by decide : trimSpace "---" = "---")]]
    exact collectFM_inside l3 l2 h2
  · unfold extractFrontMatter
    constructor
    · intro h
      by_contra hne
      rw [if_neg hne] at h
      rcases hdec : decodeYaml (String.intercalate "\n"
          (collectFrontMatterLines false (splitNewline content))) with e | fm
      · rw [hdec] at h
        exact parse_error_ne_no_front_matter e fp (Except.error.inj h)
      · rw [hdec] at h
        exact Except.noConfusion h
    · intro h
      rw [if_pos h]

/-- Witness for C10: an indented line inside the block is collected trimmed,
lines after the closing delimiter are dropped, and a contentless file yields
the "no front matter found" error. -/
theorem extractFrontMatter_trims_ignores_errors_witness :
    collectFrontMatterLines false
        (["junk"] ++ "---" :: ["  title: x "] ++ "---" :: ["body", "---"]) = ["title: x"] ∧
    extractFrontMatter (fun s => .ok ⟨s, "", ""⟩) "f.md" "plain text" =
      .error ("no front matter found in " ++ "f.md") := by
  have h := extractFrontMatter_trims_ignores_errors ["junk"] ["  title: x "] ["body", "---"]
    (fun s => .ok ⟨s, "", ""⟩) "f.md" "plain text"
    (by intro x hx; simp at hx; subst hx; decide)
    (by intro x hx; simp at hx; subst hx; decide)
  exact ⟨by rw [h.1]; decide, h.2.mpr (by decide)⟩

/-- C9: a dry-run call of `publishEventMarkdown` performs no external
operation at all (no filesystem write, no git invocation, no front-matter
read), returns the zero-value front matter with `alreadyPublished = false`
and a nil error, and a Facebook message composed from this result embeds
empty title, place and city. -/
theorem publishEventMarkdown_dryRun_pure (env : MdEnv) (tp : String) (d : Date)
    (ds lang : String) :
    (publishEventMarkdown env tp d ds lang true).err = none ∧
    (publishEventMarkdown env tp d ds lang true).alreadyPublished = false ∧
    (publishEventMarkdown env tp d ds lang true).fmData = ⟨"", "", ""⟩ ∧
    (publishEventMarkdown env tp d ds lang true).trace = [] ∧
    fbMessage (publishEventMarkdown env tp d ds lang true).data
        (publishEventMarkdown env tp d ds lang true).fmData
        (publishEventMarkdown env tp d ds lang true).eventURL =
      (publishEventMarkdown env tp d ds lang true).data.longDateCapitalized ++
        ": \n, \n\nPlus d\x27informations :\n" ++
        (publishEventMarkdown env tp d ds lang true).eventURL := by
  refine ⟨rfl, rfl, rfl, rfl, ?_⟩
  apply String.ext
  simp [publishEventMarkdown, fbMessage, String.data_append, List.append_assoc]

/-- C8: with Facebook publishing requested and an empty access token,
`publishEvent` fails immediately with an empty trace (no filesystem,
version-control or network operation); with a missing template file it
fails immediately after the existence check, the trace holding only that
read-only stat. -/
theorem publishEvent_validates_first (env : PubEnv) (ctx : EventContext) :
    (ctx.publishFacebook = true → ctx.pageAccessToken = "" →
      publishEvent env ctx = (some "FACEBOOK_PAGE_ACCESS_TOKEN not set", [])) ∧
    (¬(ctx.publishFacebook = true ∧ ctx.pageAccessToken = "") → env.templateExists = false →
      publishEvent env ctx =
        (some ("error publishing event: template file does not exist: " ++ ctx.templatePath),
         [Effect.statFile ctx.templatePath])) := by
  constructor
  · intro hfb htok
    unfold publishEvent
    rw [if_pos ⟨hfb, htok⟩]
  · intro hval hex
    unfold publishEvent
    rw [if_neg hval, if_pos hex]

/-- Witness for C8: both validation failures at concrete contexts. -/
theorem publishEvent_validates_first_witness :
    publishEvent
        ⟨true, ⟨true, none, none, none, none, .ok ⟨"", "", ""⟩, .ok "", fun _ _ => .ok "",
          fun _ _ => .ok false⟩, none, fun _ => .ok ""⟩
        ⟨⟨2024, 12, 23⟩, "t.md.template", "fr", false, true, "", "all"⟩ =
      (some "FACEBOOK_PAGE_ACCESS_TOKEN not set", []) ∧
    publishEvent
        ⟨false, ⟨true, none, none, none, none, .ok ⟨"", "", ""⟩, .ok "", fun _ _ => .ok "",
          fun _ _ => .ok false⟩, none, fun _ => .ok ""⟩
        ⟨⟨2024, 12, 23⟩, "t.md.template", "fr", false, false, "", "all"⟩ =
      (some ("error publishing event: template file does not exist: " ++ "t.md.template"),
       [Effect.statFile "t.md.template"]) :=
  ⟨(publishEvent_validates_first _ _).1 rfl rfl,
   (publishEvent_validates_first _ _).2 (by simp) rfl⟩

/-- C1: in a non-dry-run call whose steps up to the git add succeed, a
change checker reporting no staged differences (strictly after the add)
makes `publishEventMarkdown` return `alreadyPublished = true` with a nil
error and issue no commit; a checker reporting differences makes it return
`alreadyPublished = false` and issue exactly one commit, whose message is
"Add event for {dateString} based on template {templateFileName}"; and a
second invocation whose checker reports no differences (no intervening
edits) again commits nothing and reports `alreadyPublished = true`. -/
theorem publishEventMarkdown_commit_iff_changes
    (env env2 : MdEnv) (tp : String) (d : Date) (ds lang : String)
    (fm fm2 : FrontMatterData) (repoDir repoDir2 addOut addOut2 : String)
    (h1 : (if env.outputDirExists then none else env.mkdirResult) = none)
    (h2 : env.parseResult = none) (h3 : env.createResult = none) (h4 : env.execResult = none)
    (h5 : env.extractResult = .ok fm) (h6 : env.getwdResult = .ok repoDir)
    (h7 : env.runGitCommand repoDir ["add", mdOutputPath tp d] = .ok addOut)
    (g1 : (if env2.outputDirExists then none else env2.mkdirResult) = none)
    (g2 : env2.parseResult = none) (g3 : env2.createResult = none) (g4 : env2.execResult = none)
    (g5 : env2.extractResult = .ok fm2) (g6 : env2.getwdResult = .ok repoDir2)
    (g7 : env2.runGitCommand repoDir2 ["add", mdOutputPath tp d] = .ok addOut2)
    (g8 : env2.checkChanges repoDir2 (mdOutputPath tp d) = .ok false) :
    (env.checkChanges repoDir (mdOutputPath tp d) = .ok false →
      (publishEventMarkdown env tp d ds lang false).alreadyPublished = true ∧
      (publishEventMarkdown env tp d ds lang false).err = none ∧
      (publishEventMarkdown env tp d ds lang false).trace.filter isCommitEffect = []) ∧
    (∀ commitOut : String, env.checkChanges repoDir (mdOutputPath tp d) = .ok true →
      env.runGitCommand repoDir ["commit", "-m", mdCommitMessage ds (filepathBase tp)] =
        .ok commitOut →
      (publishEventMarkdown env tp d ds lang false).alreadyPublished = false ∧
      (publishEventMarkdown env tp d ds lang false).err = none ∧
      (publishEventMarkdown env tp d ds lang false).trace.filter isCommitEffect =
        [Effect.git ["commit", "-m", mdCommitMessage ds (filepathBase tp)]]) ∧
    ((publishEventMarkdown env2 tp d ds lang false).alreadyPublished = true ∧
      (publishEventMarkdown env2 tp d ds lang false).trace.filter isCommitEffect = []) := by
  refine ⟨?_, ?_, ?_⟩
  · intro h8
    simp only [publishEventMarkdown, h1, h2, h3, h4, h5, h6, h7, h8, Bool.false_eq_true,
      if_false]
    refine ⟨trivial, trivial, ?_⟩
    cases h : env.outputDirExists <;> simp [isCommitEffect]
  · intro commitOut h8 h9
    simp only [publishEventMarkdown, h1, h2, h3, h4, h5, h6, h7, h8, h9, Bool.false_eq_true,
      if_false]
    refine ⟨trivial, trivial, ?_⟩
    cases h : env.outputDirExists <;> simp [isCommitEffect]
  · simp only [publishEventMarkdown, g1, g2, g3, g4, g5, g6, g7, g8, Bool.false_eq_true,
      if_false]
    refine ⟨trivial, ?_⟩
    cases h : env2.outputDirExists <;> simp [isCommitEffect]

/-- A first-call environment whose change checker reports staged
differences. -/
def mdEnvChanges : MdEnv :=
  ⟨true, none, none, none, none, .ok ⟨"T", "P", "C"⟩, .ok "/repo", fun _ _ => .ok "",
   fun _ _ => .ok true⟩

/-- A second-call environment whose change checker reports no staged
differences. -/
def mdEnvNoChanges : MdEnv :=
  ⟨true, none, none, none, none, .ok ⟨"T", "P", "C"⟩, .ok "/repo", fun _ _ => .ok "",
   fun _ _ => .ok false⟩

/-- Witness for C1: a first call that commits once and a second call that
reports already-published and does not commit. -/
theorem publishEventMarkdown_commit_iff_changes_witness :
    ((publishEventMarkdown mdEnvChanges "okivu.md.template" ⟨2024, 12, 23⟩ "2024-12-23" "fr"
        false).alreadyPublished = false ∧
      (publishEventMarkdown mdEnvChanges "okivu.md.template" ⟨2024, 12, 23⟩ "2024-12-23" "fr"
        false).err = none ∧
      (publishEventMarkdown mdEnvChanges "okivu.md.template" ⟨2024, 12, 23⟩ "2024-12-23" "fr"
        false).trace.filter isCommitEffect =
        [Effect.git ["commit", "-m",
          mdCommitMessage "2024-12-23" (filepathBase "okivu.md.template")]]) ∧
    ((publishEventMarkdown mdEnvNoChanges "okivu.md.template" ⟨2024, 12, 23⟩ "2024-12-23" "fr"
        false).alreadyPublished = true ∧
      (publishEventMarkdown mdEnvNoChanges "okivu.md.template" ⟨2024, 12, 23⟩ "2024-12-23" "fr"
        false).trace.filter isCommitEffect = []) := by
  have h := publishEventMarkdown_commit_iff_changes mdEnvChanges mdEnvNoChanges
    "okivu.md.template" ⟨2024, 12, 23⟩ "2024-12-23" "fr" ⟨"T", "P", "C"⟩ ⟨"T", "P", "C"⟩
    "/repo" "/repo" "" "" rfl rfl rfl rfl rfl rfl rfl rfl rfl rfl rfl rfl rfl rfl rfl
  exact ⟨h.2.1 "" rfl rfl, h.2.2⟩

theorem fbPublishLoop_errors_nil_iff (post : String → Except String String) (data : EventData)
    (fm : FrontMatterData) (url token : String) (names : List String) :
    (fbPublishLoop post data fm url token false names).1 = [] ↔
      ∀ name ∈ names, ∀ pid, lookupPageID name = some pid → ∃ u, post pid = .ok u := by
  induction names with
  | nil => simp [fbPublishLoop]
  | cons name rest ih =>
    cases hl : lookupPageID name with
    | none =>
      simp only [fbPublishLoop, hl, List.mem_cons]
      rw [ih]
      constructor
      · intro h x hx pid hp
        rcases hx with hx | hx
        · subst hx; rw [hl] at hp; exact Option.noConfusion hp
        · exact h x hx pid hp
      · intro h x hx pid hp
        exact h x (Or.inr hx) pid hp
    | some pid =>
      cases hp : post pid with
      | error e =>
        simp only [fbPublishLoop, hl, publishEventOnFacebook, Bool.false_eq_true, if_false,
          hp, List.mem_cons]
        constructor
        · intro h; exact absurd h (List.cons_ne_nil _ _)
        · intro h
          rcases h name (Or.inl rfl) pid hl with ⟨u, hu⟩
          rw [hp] at hu
          exact Except.noConfusion hu
      | ok u =>
        simp only [fbPublishLoop, hl, publishEventOnFacebook, Bool.false_eq_true, if_false,
          hp, List.mem_cons]
        rw [ih]
        constructor
        · intro h x hx pid2 hp2
          rcases hx with hx | hx
          · subst hx; rw [hl] at hp2
            exact ⟨u, (Option.some.inj hp2) ▸ hp⟩
          · exact h x hx pid2 hp2
        · intro h x hx pid2 hp2
          exact h x (Or.inr hx) pid2 hp2

/-- A run selecting both registry pages, whose post to the first page
succeeds and whose post to the second page fails. -/
def c2Ctx : EventContext :=
  ⟨⟨2024, 12, 23⟩, "okivu.md.template", "fr", false, true, "token",
   "forro-a-strasbourg,forro-stras"⟩

/-- Environment for `c2Ctx`: markdown publishing succeeds, the page becomes
available, the first page's post succeeds, any other post fails. -/
def c2Env : PubEnv :=
  ⟨true, mdEnvChanges, none,
   fun pid => if pid = "351984064669408" then .ok "https://fb/post-url" else .error "boom"⟩

/-- C2 counterexample: with two selected pages of which the first posts
successfully and the second fails, `publishEvent` still returns an error,
so a single successful post does not make the call succeed overall — the
call errors as soon as at least one attempted post fails, not only when
every attempt fails. -/
theorem publishEvent_partial_failure_counterexample :
    selectedPages c2Ctx = ["forro-a-strasbourg", "forro-stras"] ∧
    c2Env.post "351984064669408" = .ok "https://fb/post-url" ∧
    (publishEvent c2Env c2Ctx).1 =
      some ("Facebook publishing errors:\n" ++
        "Failed to publish event on Facebook page \x27forro-stras\x27: boom") :=
  ⟨rfl, rfl, rfl⟩

/-- C2 (amended): per-page failures are accumulated and `publishEvent`
succeeds exactly when every attempted lookup-resolved post succeeded — it
returns an error as soon as at least one attempted post failed; page names
absent from the registry are skipped and never contribute an error, so a
selection consisting only of unknown names still succeeds. -/
theorem publishEvent_fails_iff_any_post_fails (env : PubEnv) (ctx : EventContext)
    (hfb : ctx.publishFacebook = true) (htok : ¬ ctx.pageAccessToken = "")
    (hex : env.templateExists = true) (hdr : ctx.dryRun = false)
    (hmd : (publishEventMarkdown env.md ctx.templatePath ctx.date (formatISO ctx.date)
      ctx.language false).err = none)
    (hwait : env.waitResult = none) :
    ((publishEvent env ctx).1 = none ↔
      ∀ name ∈ selectedPages ctx, ∀ pid, lookupPageID name = some pid →
        ∃ u, env.post pid = .ok u) ∧
    ((∀ name ∈ selectedPages ctx, lookupPageID name = none) →
      (publishEvent env ctx).1 = none) := by
  have hcond : ¬(ctx.publishFacebook = true ∧ ctx.pageAccessToken = "") := fun h => htok h.2
  have hexf : ¬ env.templateExists = false := by rw [hex]; simp
  unfold publishEvent
  rw [if_neg hcond, if_neg hexf]
  simp only [hdr, hmd, hfb, if_true, Bool.false_eq_true, if_false, hwait]
  have hloop := fbPublishLoop_errors_nil_iff env.post
    (publishEventMarkdown env.md ctx.templatePath ctx.date (formatISO ctx.date)
      ctx.language false).data
    (publishEventMarkdown env.md ctx.templatePath ctx.date (formatISO ctx.date)
      ctx.language false).fmData
    (publishEventMarkdown env.md ctx.templatePath ctx.date (formatISO ctx.date)
      ctx.language false).eventURL
    ctx.pageAccessToken (selectedPages ctx)
  by_cases h : (fbPublishLoop env.post
    (publishEventMarkdown env.md ctx.templatePath ctx.date (formatISO ctx.date)
      ctx.language false).data
    (publishEventMarkdown env.md ctx.templatePath ctx.date (formatISO ctx.date)
      ctx.language false).fmData
    (publishEventMarkdown env.md ctx.templatePath ctx.date (formatISO ctx.date)
      ctx.language false).eventURL
    ctx.pageAccessToken false (selectedPages ctx)).1 = []
  · rw [if_pos h]
    exact ⟨iff_of_true rfl (hloop.mp h), fun _ => rfl⟩
  · rw [if_neg h]
    refine ⟨iff_of_false (by simp) fun hr => h (hloop.mpr hr), fun hall => ?_⟩
    exact absurd (hloop.mpr fun name hn pid hp => absurd hp (by simp [hall name hn])) h

/-- Environment whose posts all succeed. -/
def c2OkEnv : PubEnv :=
  ⟨true, mdEnvChanges, none, fun _ => .ok "https://fb/post-url"⟩

/-- A run selecting one known page and one unknown page. -/
def c2UnknownCtx : EventContext :=
  ⟨⟨2024, 12, 23⟩, "okivu.md.template", "fr", false, true, "token",
   "forro-a-strasbourg,unknown-page"⟩

/-- Witness for the amended C2: with pages "forro-a-strasbourg,unknown-page"
and a successful post, the call succeeds overall although one name is
unknown. -/
theorem publishEvent_fails_iff_any_post_fails_witness :
    (publishEvent c2OkEnv c2UnknownCtx).1 = none := by
  have h := publishEvent_fails_iff_any_post_fails c2OkEnv c2UnknownCtx rfl (by decide) rfl rfl
    (by decide) rfl
  refine h.1.mpr ?_
  intro name hn pid hp
  rw [show selectedPages c2UnknownCtx = ["forro-a-strasbourg", "unknown-page"] from by decide]
    at hn
  simp only [List.mem_cons, List.not_mem_nil, or_false] at hn
  rcases hn with rfl | rfl
  · rw [show lookupPageID "forro-a-strasbourg" = some "351984064669408" from rfl] at hp
    exact ⟨"https://fb/post-url", by rw [← Option.some.inj hp]; rfl⟩
  · rw [show lookupPageID "unknown-page" = none from rfl] at hp
    exact Option.noConfusion hp

theorem waitLoop_ok_iff (get : Nat → Option Nat) (timeout interval : Nat) (hpos : 0 < interval) :
    ∀ (m i now : Nat), timeout - now ≤ m →
      (waitLoop get timeout interval hpos i now = .ok () ↔
        ∃ k, now + k * interval < timeout ∧ get (i + k) = some 200) := by
  intro m
  induction m with
  | zero =>
    intro i now h
    have hlt : ¬ now < timeout := by omega
    rw [waitLoop, if_neg hlt]
    constructor
    · intro h2; exact Except.noConfusion h2
    · rintro ⟨k, hk, -⟩; omega
  | succ m ih =>
    intro i now h
    by_cases hlt : now < timeout
    · rw [waitLoop, if_pos hlt]
      cases hg : get i with
      | none =>
        rw [ih (i + 1) (now + interval) (by omega)]
        constructor
        · rintro ⟨k, h1, h2⟩
          refine ⟨k + 1, by rw [Nat.succ_mul]; omega, ?_⟩
          rw [show i + (k + 1) = i + 1 + k from by omega]
          exact h2
        · rintro ⟨k, h1, h2⟩
          cases k with
          | zero => rw [Nat.add_zero] at h2; rw [hg] at h2; exact Option.noConfusion h2
          | succ k2 =>
            refine ⟨k2, by rw [Nat.succ_mul] at h1; omega, ?_⟩
            rw [show i + 1 + k2 = i + (k2 + 1) from by omega]
            exact h2
      | some code =>
        dsimp only
        by_cases hc : code = 200
        · rw [if_pos hc]
          refine iff_of_true rfl ⟨0, by omega, by rw [Nat.add_zero, hg, hc]⟩
        · rw [if_neg hc]
          rw [ih (i + 1) (now + interval) (by omega)]
          constructor
          · rintro ⟨k, h1, h2⟩
            refine ⟨k + 1, by rw [Nat.succ_mul]; omega, ?_⟩
            rw [show i + (k + 1) = i + 1 + k from by omega]
            exact h2
          · rintro ⟨k, h1, h2⟩
            cases k with
            | zero =>
              rw [Nat.add_zero] at h2; rw [hg] at h2
              exact absurd (Option.some.inj h2) hc
            | succ k2 =>
              refine ⟨k2, by rw [Nat.succ_mul] at h1; omega, ?_⟩
              rw [show i + 1 + k2 = i + (k2 + 1) from by omega]
              exact h2
    · rw [waitLoop, if_neg hlt]
      constructor
      · intro h2; exact Except.noConfusion h2
      · rintro ⟨k, hk, -⟩; omega

theorem waitLoop_ok_or_timeout (get : Nat → Option Nat) (timeout interval : Nat)
    (hpos : 0 < interval) :
    ∀ (m i now : Nat), timeout - now ≤ m →
      waitLoop get timeout interval hpos i now = .ok () ∨
      waitLoop get timeout interval hpos i now =
        .error "timed out waiting for the event page to become available" := by
  intro m
  induction m with
  | zero =>
    intro i now h
    rw [waitLoop, if_neg (by omega : ¬ now < timeout)]
    exact Or.inr rfl
  | succ m ih =>
    intro i now h
    by_cases hlt : now < timeout
    · rw [waitLoop, if_pos hlt]
      cases hg : get i with
      | none => exact ih (i + 1) (now + interval) (by omega)
      | some code =>
        dsimp only
        by_cases hc : code = 200
        · rw [if_pos hc]; exact Or.inl rfl
        · rw [if_neg hc]; exact ih (i + 1) (now + interval) (by omega)
    · rw [waitLoop, if_neg hlt]
      exact Or.inr rfl

/-- C7: `waitForEventPage` returns nil exactly when some poll attempt made
strictly before the deadline observes status 200; network errors and
non-200 statuses never produce success and only lead to a sleep of one
interval and a retry, and when no 200 arrives before the deadline the
result is the timeout error. -/
theorem waitForEventPage_ok_iff_200_before_deadline (get : Nat → Option Nat)
    (timeout interval : Nat) (hpos : 0 < interval) :
    (waitForEventPage get timeout interval hpos = .ok () ↔
      ∃ i, i * interval < timeout ∧ get i = some 200) ∧
    (waitForEventPage get timeout interval hpos = .ok () ∨
      waitForEventPage get timeout interval hpos =
        .error "timed out waiting for the event page to become available") := by
  constructor
  · rw [waitForEventPage, waitLoop_ok_iff get timeout interval hpos (timeout - 0) 0 0 le_rfl]
    simp only [Nat.zero_add]
  · exact waitLoop_ok_or_timeout get timeout interval hpos (timeout - 0) 0 0 le_rfl

/-- Witness for C7: a target answering 200 on the first attempt succeeds. -/
theorem waitForEventPage_ok_iff_200_before_deadline_witness :
    0 < 1 ∧ waitForEventPage (fun _ => some 200) 5 1 Nat.one_pos = .ok () :=
  ⟨Nat.one_pos,
   (waitForEventPage_ok_iff_200_before_deadline (fun _ => some 200) 5 1 Nat.one_pos).1.mpr
     ⟨0, by omega, rfl⟩⟩

end Publish
